import Mathlib

/-!
Verification of the Starlink tracker rendering / simulation engine
(`src/app/StarlinkVisualization.tsx`) against its specification.

The relevant parts of the source are shallowly embedded below:
float arithmetic is modelled over `ℚ` where the code's control flow
branches on comparisons (so everything stays computable/decidable) and
over `ℝ` where the code uses transcendental functions
(`Math.sin/cos/atan2/sqrt`).  External collaborators (the SGP4
propagator of satellite.js, geodetic conversion) are modelled as
function parameters, as the spec treats them as opaque capabilities.
-/

/-! ## Simulation clock (source lines 468-490 and 729)

`timeOffsetRef`, `pausedTimeRef` and `lastFrameTimeRef` form the clock
state.  Each animation frame receives a wall-clock timestamp `now` and
the current speed, and updates the state exactly as the `draw` callback
does before computing `simDate = Date.now() + timeOffset`.  The model
identifies the `performance.now()` frame clock with the `Date.now()`
wall clock, as the spec does. -/

structure ClockState where
  offset : ℚ
  paused : Option ℚ
  lastFrame : ℚ
  deriving DecidableEq

/-- One frame's clock update (source lines 469-489).
`dt := now - lastFrame`; at speed 0 the pause anchor is captured once
and the offset re-solved so that `now + offset = anchor`; at positive
speed the offset accumulates `dt * (speed - 1)`. -/
def clockStep (s : ClockState) (now speed : ℚ) : ClockState :=
  if speed = 0 then
    let anchor := s.paused.getD (now + s.offset)
    { offset := anchor - now, paused := some anchor, lastFrame := now }
  else
    { offset := if 0 < speed then s.offset + (now - s.lastFrame) * (speed - 1) else s.offset,
      paused := none,
      lastFrame := now }

/-- `simDate = Date.now() + timeOffset` (source line 729). -/
def simTime (s : ClockState) (now : ℚ) : ℚ :=
  now + s.offset

/-- The simulated time displayed by the frame that runs at wall time
`now` with the given speed: the clock is updated first (lines 475-489),
then `simDate` is read (line 729). -/
def frameDisplay (s : ClockState) (now speed : ℚ) : ℚ :=
  simTime (clockStep s now speed) now

/-- State after a sequence of frames at a fixed speed. -/
def runClock (speed : ℚ) (s : ClockState) (ts : List ℚ) : ClockState :=
  ts.foldl (fun st τ => clockStep st τ speed) s

/-- The simulated times displayed by a sequence of frames at wall times
`ts`, all at a fixed speed. -/
def runDisplays (speed : ℚ) : ClockState → List ℚ → List ℚ
  | _, [] => []
  | s, τ :: ts => frameDisplay s τ speed :: runDisplays speed (clockStep s τ speed) ts

lemma clockStep_pause_anchor (s : ClockState) (now a : ℚ) (h : s.paused = some a) :
    clockStep s now 0 = { offset := a - now, paused := some a, lastFrame := now } := by
  simp [clockStep, h]

lemma clockStep_pause_fresh (s : ClockState) (now : ℚ) (h : s.paused = none) :
    clockStep s now 0 =
      { offset := (now + s.offset) - now, paused := some (now + s.offset), lastFrame := now } := by
  simp [clockStep, h]

/-- Invariant holding after any paused frame with anchor `a`. -/
def PausedAt (a : ℚ) (s : ClockState) : Prop :=
  s.paused = some a ∧ s.offset = a - s.lastFrame

lemma pausedAt_step (a : ℚ) (s : ClockState) (now : ℚ) (h : PausedAt a s) :
    PausedAt a (clockStep s now 0) := by
  rcases h with ⟨hp, _⟩
  rw [clockStep_pause_anchor s now a hp]
  exact ⟨rfl, rfl⟩

lemma pausedAt_first (s : ClockState) (now : ℚ) :
    PausedAt (frameDisplay s now 0) (clockStep s now 0) := by
  cases hp : s.paused with
  | none =>
      have hd : frameDisplay s now 0 = now + s.offset := by
        rw [frameDisplay, clockStep_pause_fresh s now hp, simTime]; ring
      rw [hd, clockStep_pause_fresh s now hp]
      exact ⟨rfl, rfl⟩
  | some a =>
      have hd : frameDisplay s now 0 = a := by
        rw [frameDisplay, clockStep_pause_anchor s now a hp, simTime]; ring
      rw [hd, clockStep_pause_anchor s now a hp]
      exact ⟨rfl, rfl⟩

lemma pausedAt_display (a : ℚ) (s : ClockState) (now : ℚ) (h : PausedAt a s) :
    frameDisplay s now 0 = a := by
  rw [frameDisplay, clockStep_pause_anchor s now a h.1, simTime]
  ring

lemma pausedAt_run (a : ℚ) (s : ClockState) (ts : List ℚ) (h : PausedAt a s) :
    PausedAt a (runClock 0 s ts) := by
  induction ts generalizing s with
  | nil => exact h
  | cons τ ts ih => exact ih (clockStep s τ 0) (pausedAt_step a s τ h)

lemma pausedAt_runDisplays (a : ℚ) (s : ClockState) (ts : List ℚ) (h : PausedAt a s) :
    ∀ u ∈ runDisplays 0 s ts, u = a := by
  induction ts generalizing s with
  | nil => intro u hu; simp [runDisplays] at hu
  | cons τ ts ih =>
      intro u hu
      rw [runDisplays] at hu
      rcases List.mem_cons.mp hu with h1 | h2
      · rw [h1]; exact pausedAt_display a s τ h
      · exact ih (clockStep s τ 0) (pausedAt_step a s τ h) u h2

lemma resume_display (a : ℚ) (s : ClockState) (t' v : ℚ) (hv : 0 < v)
    (h : PausedAt a s) :
    frameDisplay s t' v = a + v * (t' - s.lastFrame) := by
  rcases h with ⟨_, hoff⟩
  rw [frameDisplay, clockStep, if_neg (by exact ne_of_gt hv), simTime]
  simp only [if_pos hv]
  rw [hoff]
  ring

/-- C2.  While speed = 0 the displayed simulated time is exactly
constant over every sequence of frames: the first paused frame (at wall
time `t`) displays some value `a`, every further paused frame (at the
arbitrary wall times `ts`) displays exactly `a`; and on the transition
away from speed 0, the resume frame at wall time `t'` with speed `v > 0`
displays `a + v * (t' - lastFrame)` — it continues from exactly the
frozen value `a` with no jump (for `t' = lastFrame`, i.e. zero elapsed
wall time, the displayed time is exactly `a`). -/
theorem c2_pause_freezes_time_resume_no_jump
    (s : ClockState) (t : ℚ) (ts : List ℚ) (t' v : ℚ) (hv : 0 < v) :
    (∀ u ∈ runDisplays 0 (clockStep s t 0) ts, u = frameDisplay s t 0) ∧
    frameDisplay (runClock 0 (clockStep s t 0) ts) t' v =
      frameDisplay s t 0 + v * (t' - (runClock 0 (clockStep s t 0) ts).lastFrame) ∧
    (t' = (runClock 0 (clockStep s t 0) ts).lastFrame →
      frameDisplay (runClock 0 (clockStep s t 0) ts) t' v = frameDisplay s t 0) := by
  have h0 := pausedAt_first s t
  have hrun := pausedAt_run (frameDisplay s t 0) (clockStep s t 0) ts h0
  refine ⟨pausedAt_runDisplays _ _ ts h0, resume_display _ _ t' v hv hrun, ?_⟩
  intro ht
  rw [resume_display _ _ t' v hv hrun, ht]
  ring

/-- Witness for C2 at a concrete run: initial state, pause frames at
wall times 100, 116, 132, then resume at 132 (zero elapsed time) with
speed 20: every paused frame displays the frozen value and the resume
display equals it exactly. -/
theorem c2_witness :
    (0 : ℚ) < 20 ∧
    ((∀ u ∈ runDisplays 0 (clockStep ⟨0, none, 0⟩ 100 0) [116, 132],
        u = frameDisplay ⟨0, none, 0⟩ 100 0) ∧
      frameDisplay (runClock 0 (clockStep ⟨0, none, 0⟩ 100 0) [116, 132]) 132 20 =
        frameDisplay ⟨0, none, 0⟩ 100 0 +
          20 * (132 - (runClock 0 (clockStep ⟨0, none, 0⟩ 100 0) [116, 132]).lastFrame) ∧
      ((132 : ℚ) = (runClock 0 (clockStep ⟨0, none, 0⟩ 100 0) [116, 132]).lastFrame →
        frameDisplay (runClock 0 (clockStep ⟨0, none, 0⟩ 100 0) [116, 132]) 132 20 =
          frameDisplay ⟨0, none, 0⟩ 100 0)) :=
  ⟨by norm_num,
   c2_pause_freezes_time_resume_no_jump ⟨0, none, 0⟩ 100 [116, 132] 132 20 (by norm_num)⟩

lemma runDisplays_speed_one (ts : List ℚ) :
    ∀ s : ClockState, s.offset = 0 → runDisplays 1 s ts = ts := by
  induction ts with
  | nil => intro s _; rfl
  | cons τ ts ih =>
      intro s hoff
      have hstep : clockStep s τ 1 = { offset := s.offset, paused := none, lastFrame := τ } := by
        rw [clockStep, if_neg (by norm_num)]
        simp
      rw [runDisplays, frameDisplay, hstep, simTime]
      rw [ih { offset := s.offset, paused := none, lastFrame := τ } hoff]
      rw [hoff]
      norm_num

/-- C8.  On every frame with speed `v > 0` and elapsed wall time
`dt = now - lastFrame`, the clock offset increases by exactly
`dt * (v - 1)`; at speed 1 the offset is unchanged; and a run of frames
started from the initial state (offset 0, as on mount) entirely at
speed 1 displays exactly the wall-clock frame times — simulated time
equals wall time (hence certainly within one frame's elapsed duration)
for any sequence of frame ticks. -/
theorem c8_offset_accumulation
    (s : ClockState) (now v t0 : ℚ) (hv : 0 < v) (ts : List ℚ) :
    (clockStep s now v).offset = s.offset + (now - s.lastFrame) * (v - 1) ∧
    (clockStep s now 1).offset = s.offset ∧
    runDisplays 1 ⟨0, none, t0⟩ ts = ts := by
  refine ⟨?_, ?_, runDisplays_speed_one ts ⟨0, none, t0⟩ rfl⟩
  · rw [clockStep, if_neg (by exact ne_of_gt hv)]
    simp [if_pos hv]
  · rw [clockStep, if_neg (by norm_num)]
    simp

/-- Witness for C8 at a concrete frame: speed 100, previous frame at
wall time 40, current frame at 56. -/
theorem c8_witness :
    (0 : ℚ) < 100 ∧
    ((clockStep ⟨7, none, 40⟩ 56 100).offset = 7 + (56 - 40) * (100 - 1) ∧
      (clockStep ⟨7, none, 40⟩ 56 1).offset = 7 ∧
      runDisplays 1 ⟨0, none, 3⟩ [16, 32, 48] = [16, 32, 48]) :=
  ⟨by norm_num, c8_offset_accumulation ⟨7, none, 40⟩ 56 100 3 (by norm_num) [16, 32, 48]⟩

/-! ## Inclination bucketing and group colors (source lines 76-107, 211-238)

`getInclinationBucket` and `getColorForInclination` are pure; the group
array built in `loadStarlink` sorts the distinct buckets ascending and
attaches range label, count, color and enabled flag. -/

structure RGB where
  r : ℕ
  g : ℕ
  b : ℕ
  deriving DecidableEq

/-- `Math.floor(inc / 10) * 10` (source lines 76-78). -/
def getInclinationBucket (inc : ℚ) : ℤ :=
  ⌊inc / 10⌋ * 10

/-- The color branch chain of source lines 81-107, verbatim. -/
def getColorForInclination (bucket : ℤ) : RGB :=
  if 50 ≤ bucket ∧ bucket < 60 then ⟨99, 102, 241⟩
  else if 60 ≤ bucket ∧ bucket < 80 then ⟨52, 211, 153⟩
  else if 90 ≤ bucket then ⟨251, 146, 60⟩
  else if bucket < 50 then ⟨59, 130, 246⟩
  else if 80 ≤ bucket ∧ bucket < 90 then ⟨163, 230, 53⟩
  else ⟨34, 211, 238⟩

/-- The color assigned to an ingested object of inclination `inc`
(source line 221: `getColorForInclination(bucket)`). -/
def satColor (inc : ℚ) : RGB :=
  getColorForInclination (getInclinationBucket inc)

structure InclinationGroup where
  range : String
  minInc : ℤ
  maxInc : ℤ
  count : ℕ
  color : RGB
  enabled : Bool
  deriving DecidableEq

/-- The inclination-group array built from the ingested objects'
inclinations (source lines 211-213 build the bucket→count map in
iteration order, lines 229-238 sort entries by bucket ascending and
build the group records). -/
def mkGroups (incs : List ℚ) : List InclinationGroup :=
  let buckets := incs.map getInclinationBucket
  (buckets.dedup.insertionSort (fun a b => a ≤ b)).map fun bucket =>
    { range := toString bucket ++ "-" ++ toString (bucket + 10) ++ "°",
      minInc := bucket,
      maxInc := bucket + 10,
      count := buckets.count bucket,
      color := getColorForInclination bucket,
      enabled := true }

/-- C6.  For every inclination `v ≥ 0` the assigned bucket is
`⌊v/10⌋*10`; an object in bucket `b` satisfies `b ≤ v < b + 10`; the
per-object color is a function of the bucket alone; and the end-to-end
scenario with inclinations 52°, 71°, 98° produces exactly the three
groups 50-60°, 70-80°, 90-100° with count 1 and the fixed colors. -/
theorem c6_inclination_bucketing (v : ℚ) (hv : 0 ≤ v) :
    getInclinationBucket v = ⌊v / 10⌋ * 10 ∧
    ((getInclinationBucket v : ℚ) ≤ v ∧ v < (getInclinationBucket v : ℚ) + 10) ∧
    (∀ w : ℚ, getInclinationBucket w = getInclinationBucket v → satColor w = satColor v) ∧
    mkGroups [52, 71, 98] =
      [{ range := "50-60°", minInc := 50, maxInc := 60, count := 1,
         color := ⟨99, 102, 241⟩, enabled := true },
       { range := "70-80°", minInc := 70, maxInc := 80, count := 1,
         color := ⟨52, 211, 153⟩, enabled := true },
       { range := "90-100°", minInc := 90, maxInc := 100, count := 1,
         color := ⟨251, 146, 60⟩, enabled := true }] := by
  refine ⟨rfl, ⟨?_, ?_⟩, ?_, ?_⟩
  · have h := Int.floor_le (v / 10)
    calc ((getInclinationBucket v : ℚ)) = (⌊v / 10⌋ : ℚ) * 10 := by
          rw [getInclinationBucket]; push_cast; ring
      _ ≤ (v / 10) * 10 := by
          apply mul_le_mul_of_nonneg_right h (by norm_num)
      _ = v := by field_simp
  · have h := Int.lt_floor_add_one (v / 10)
    calc v = (v / 10) * 10 := by field_simp
      _ < ((⌊v / 10⌋ : ℚ) + 1) * 10 := by
          apply mul_lt_mul_of_pos_right h (by norm_num)
      _ = (getInclinationBucket v : ℚ) + 10 := by
          rw [getInclinationBucket]; push_cast; ring
  · intro w hw
    rw [satColor, satColor, hw]
  · have hb : ([52, 71, 98] : List ℚ).map getInclinationBucket = [50, 70, 90] := by
      simp [getInclinationBucket]
      norm_num
    simp only [mkGroups]
    rw [hb]
    decide

/-- Witness for C6 at `v = 52`. -/
theorem c6_witness :
    getInclinationBucket 52 = ⌊(52 : ℚ) / 10⌋ * 10 ∧
    ((getInclinationBucket 52 : ℚ) ≤ 52 ∧ (52 : ℚ) < (getInclinationBucket 52 : ℚ) + 10) ∧
    (∀ w : ℚ, getInclinationBucket w = getInclinationBucket 52 → satColor w = satColor 52) ∧
    mkGroups [52, 71, 98] =
      [{ range := "50-60°", minInc := 50, maxInc := 60, count := 1,
         color := ⟨99, 102, 241⟩, enabled := true },
       { range := "70-80°", minInc := 70, maxInc := 80, count := 1,
         color := ⟨52, 211, 153⟩, enabled := true },
       { range := "90-100°", minInc := 90, maxInc := 100, count := 1,
         color := ⟨251, 146, 60⟩, enabled := true }] :=
  c6_inclination_bucketing 52 (by norm_num)

/-! ## Click handling and selection (source lines 367-385)

`handleClick` computes `wasDrag` from the pointer displacement since
mousedown (`sqrt(dx²+dy²) > 4`); here the boolean outcome of that test
is a parameter.  If a hover target exists, the matching satellite is
looked up by name and promoted to selected; otherwise the selection is
cleared only when the click was not a drag. -/

structure SatData where
  satrec : ℕ
  name : String
  inc : ℚ
  group : String
  color : RGB
  deriving DecidableEq

structure HoverInfo where
  name : String
  x : ℚ
  y : ℚ
  deriving DecidableEq

structure SelectedSat where
  name : String
  satrec : ℕ
  color : RGB
  deriving DecidableEq

/-- The click handler's effect on `selectedSatRef` (source lines
367-385).  `wasDrag` stands for `sqrt(dx²+dy²) > 4` computed from the
mousedown and click positions. -/
def handleClick (sats : List SatData) (hovered : Option HoverInfo) (wasDrag : Bool)
    (sel : Option SelectedSat) : Option SelectedSat :=
  match hovered with
  | some h =>
      match sats.find? (fun s => s.name == h.name) with
      | some sat => some ⟨sat.name, sat.satrec, sat.color⟩
      | none => sel
  | none => if !wasDrag then none else sel

/-- C5 counterexample.  The claim says a click promotes the hover
target to selected only when the click was not a drag gesture.  In the
code the `wasDrag` test guards only deselection: with a hover target
present, a click at the end of a drag (`wasDrag = true`) still promotes
the target.  Concrete input: one satellite "SAT-1", hovered, drag
gesture, no prior selection — the code selects it anyway. -/
theorem c5_counterexample :
    handleClick [⟨7, "SAT-1", 53, "50", ⟨99, 102, 241⟩⟩]
        (some ⟨"SAT-1", 12, 34⟩) true none =
      some ⟨"SAT-1", 7, ⟨99, 102, 241⟩⟩ := by
  decide

/-- C5 (amended).  A click landing on a hover target promotes it to
selected regardless of whether the gesture was a drag; a genuine
non-drag click on empty space clears the selection; a drag released
over empty space leaves the selection unchanged; a hover target whose
name matches no satellite leaves the selection unchanged. -/
theorem c5_click_selection
    (sats : List SatData) (h : HoverInfo) (wasDrag : Bool) (sel : Option SelectedSat) :
    (∀ sat, sats.find? (fun s => s.name == h.name) = some sat →
        handleClick sats (some h) wasDrag sel = some ⟨sat.name, sat.satrec, sat.color⟩) ∧
    handleClick sats none true sel = sel ∧
    handleClick sats none false sel = none ∧
    (sats.find? (fun s => s.name == h.name) = none →
        handleClick sats (some h) wasDrag sel = sel) := by
  refine ⟨?_, rfl, rfl, ?_⟩
  · intro sat hfind
    rw [handleClick, hfind]
  · intro hfind
    rw [handleClick, hfind]

/-- Witness for C5 (amended) at concrete inputs. -/
theorem c5_witness :
    handleClick [⟨7, "SAT-1", 53, "50", ⟨99, 102, 241⟩⟩]
        (some ⟨"SAT-1", 12, 34⟩) false (some ⟨"OTHER", 9, ⟨0, 0, 0⟩⟩) =
      some ⟨"SAT-1", 7, ⟨99, 102, 241⟩⟩ ∧
    handleClick [] none true (some ⟨"OTHER", 9, ⟨0, 0, 0⟩⟩) = some ⟨"OTHER", 9, ⟨0, 0, 0⟩⟩ ∧
    handleClick [] none false (some ⟨"OTHER", 9, ⟨0, 0, 0⟩⟩) = none := by
  have h := c5_click_selection [⟨7, "SAT-1", 53, "50", ⟨99, 102, 241⟩⟩]
    ⟨"SAT-1", 12, 34⟩ false (some ⟨"OTHER", 9, ⟨0, 0, 0⟩⟩)
  have h2 := c5_click_selection [] ⟨"SAT-1", 12, 34⟩ true (some ⟨"OTHER", 9, ⟨0, 0, 0⟩⟩)
  exact ⟨h.1 ⟨7, "SAT-1", 53, "50", ⟨99, 102, 241⟩⟩ (by decide), h2.2.1, h2.2.2.1⟩

/-! ## Sphere occlusion test (source lines 784-800, 809-820, 936-946)

In view space (after yaw/pitch rotation) the code computes
`distToAxis = sqrt(rx² + ry²)`; a point is marked occluded iff
`distToAxis < EARTH_R` and `rz < sqrt(EARTH_R² - distToAxis²)`.  The
same test is applied to satellites, hover candidates and trajectory
sample points; the sphere radius is a parameter `R` here
(`EARTH_R = 210` in the source). -/

/-- The occlusion predicate of the `draw` loop, with
`d := sqrt(x² + y²)`: occluded iff `d < R` and `z < sqrt(R² - d²)`. -/
def isOccluded (x y z R : ℝ) : Prop :=
  Real.sqrt (x ^ 2 + y ^ 2) < R ∧
  z < Real.sqrt (R ^ 2 - Real.sqrt (x ^ 2 + y ^ 2) ^ 2)

/-- C3.  With `d = sqrt(x² + y²)`: a point with `d ≥ R` is never
occluded; for `d < R` the point is occluded iff `z < sqrt(R² - d²)`;
a point on the view axis at depth `z = R` (on the sphere surface facing
the camera) is not occluded; a point on the view axis with negative
depth is occluded. -/
theorem c3_occlusion (x y z R : ℝ) (hR : 0 < R) :
    (R ≤ Real.sqrt (x ^ 2 + y ^ 2) → ¬ isOccluded x y z R) ∧
    (Real.sqrt (x ^ 2 + y ^ 2) < R →
      (isOccluded x y z R ↔ z < Real.sqrt (R ^ 2 - Real.sqrt (x ^ 2 + y ^ 2) ^ 2))) ∧
    ¬ isOccluded 0 0 R R ∧
    (z < 0 → isOccluded 0 0 z R) := by
  have hz0 : Real.sqrt ((0 : ℝ) ^ 2 + 0 ^ 2) = 0 := by
    norm_num
  have hsurf : Real.sqrt (R ^ 2 - Real.sqrt ((0 : ℝ) ^ 2 + 0 ^ 2) ^ 2) = R := by
    rw [hz0]
    norm_num
    exact Real.sqrt_sq hR.le
  refine ⟨?_, ?_, ?_, ?_⟩
  · intro hd hocc
    exact absurd hocc.1 (not_lt.mpr hd)
  · intro hd
    exact ⟨fun h => h.2, fun h => ⟨hd, h⟩⟩
  · intro hocc
    rw [isOccluded, hsurf] at hocc
    exact lt_irrefl R hocc.2
  · intro hz
    rw [isOccluded, hsurf, hz0]
    exact ⟨hR, hz.trans hR⟩

/-- Witness for C3: with `R = 210` (the source's `EARTH_R`), the
surface point `(0, 0, 210)` is not occluded and the axis point
`(0, 0, -1)` is occluded. -/
theorem c3_witness :
    ¬ isOccluded 0 0 210 210 ∧ isOccluded 0 0 (-1) 210 :=
  ⟨(c3_occlusion 0 0 210 210 (by norm_num)).2.2.1,
   (c3_occlusion 0 0 (-1) 210 (by norm_num)).2.2.2 (by norm_num)⟩

/-! ## Geodetic converter and the satellite/border longitude convention
(source lines 462-466, 544-549, 751-760, 926-930)

`geoToXYZ(lon, lat, r)` negates its longitude argument before the
spherical-to-Cartesian conversion.  Border geometry passes longitudes
through directly (`geoToXYZ(lon1, lat1, EARTH_R * 0.998)`), while the
satellite position cache and the trajectory sampler pass the negated
longitude (`geoToXYZ(-pos.lon, pos.lat, altPx)`). -/

noncomputable section

/-- Degrees-to-Cartesian conversion of source lines 462-466:
`latR = lat·π/180`, `lonR = (-lon)·π/180`,
result `(r·cos latR·cos lonR, r·sin latR, r·cos latR·sin lonR)`. -/
def geoToXYZ (lon lat r : ℝ) : ℝ × ℝ × ℝ :=
  let latR := lat * Real.pi / 180
  let lonR := (-lon) * Real.pi / 180
  (r * Real.cos latR * Real.cos lonR,
   r * Real.sin latR,
   r * Real.cos latR * Real.sin lonR)

/-- The Earth render radius constant (source line 73). -/
def EARTH_R : ℝ := 210

/-- The cached render-space position of a satellite at geographic
longitude `lon`, latitude `lat` and scaled render radius `altPx`
(source line 759: `geoToXYZ(-pos.lon, pos.lat, altPx)`; the trajectory
sampler at line 930 is identical). -/
def satCachePoint (lon lat altPx : ℝ) : ℝ × ℝ × ℝ :=
  geoToXYZ (-lon) lat altPx

/-- The render-space position border geometry assigns to a ring vertex
at longitude `lon`, latitude `lat` (source line 548:
`geoToXYZ(lon1, lat1, EARTH_R * 0.998)`). -/
def borderPoint (lon lat : ℝ) : ℝ × ℝ × ℝ :=
  geoToXYZ lon lat (EARTH_R * 0.998)

end

/-- C10.  The satellite cache point for longitude `L` is
`geoToXYZ(-L, φ, r)`; because `geoToXYZ` negates its longitude
argument, that point sits at azimuth angle `+L·π/180`; its x and y
components agree with `geoToXYZ(L, φ, r)` while its z component is
negated (mirrored east-west); and at the border radius the satellite
point for longitude `L` is exactly the point border geometry assigns to
longitude `-L`. -/
theorem c10_longitude_mirroring (L φ r : ℝ) :
    satCachePoint L φ r = geoToXYZ (-L) φ r ∧
    geoToXYZ (-L) φ r =
      (r * Real.cos (φ * Real.pi / 180) * Real.cos (L * Real.pi / 180),
       r * Real.sin (φ * Real.pi / 180),
       r * Real.cos (φ * Real.pi / 180) * Real.sin (L * Real.pi / 180)) ∧
    (geoToXYZ (-L) φ r).1 = (geoToXYZ L φ r).1 ∧
    (geoToXYZ (-L) φ r).2.1 = (geoToXYZ L φ r).2.1 ∧
    (geoToXYZ (-L) φ r).2.2 = -(geoToXYZ L φ r).2.2 ∧
    satCachePoint L φ (EARTH_R * 0.998) = borderPoint (-L) φ := by
  have hneg : ∀ t : ℝ, (-t) * Real.pi / 180 = -(t * Real.pi / 180) := by
    intro t; ring
  refine ⟨rfl, ?_, ?_, rfl, ?_, rfl⟩
  · simp [geoToXYZ, neg_mul, neg_div, Real.cos_neg, Real.sin_neg]
  · simp [geoToXYZ, neg_mul, neg_div, Real.cos_neg, Real.sin_neg]
  · simp [geoToXYZ, neg_mul, neg_div, Real.cos_neg, Real.sin_neg]

/-! ## Visible-hemisphere ring clipping (source lines 579-724)

Each ring's pre-interpolated 3D points (`interpolatedCoords`) are
projected (`projected = interpolatedCoords.map(project)`); the clipped
fill path walks index `i` with cyclic successor `(i+1) % n`, keeping
front-facing points (`z > 0`) and inserting, at each visibility flip,
a limb point obtained from `getEdgeIntersection`.  The cyclic walk is
modelled by zipping each list with its rotation by one.  The projection
`project` (a yaw/pitch rotation followed by the screen transform,
source lines 440-444) enters only through the points it produces, so it
is a function parameter here; screen/depth coordinates are in `ℚ`. -/

structure Pt3 where
  x : ℚ
  y : ℚ
  z : ℚ
  deriving DecidableEq, Inhabited

structure ProjPt where
  x : ℚ
  y : ℚ
  z : ℚ
  deriving DecidableEq, Inhabited

structure ClipPt where
  x : ℚ
  y : ℚ
  isLimb : Bool
  deriving DecidableEq

/-- Source lines 584-601: interpolate in 3D at the parameter where the
projected depth crosses 0 (`t = p1.z / (p1.z - p2.z)`), then project
the interpolated point. -/
def getEdgeIntersection (proj : Pt3 → ProjPt) (p1 p2 : ProjPt) (c1 c2 : Pt3) : ProjPt :=
  let t := p1.z / (p1.z - p2.z)
  proj ⟨c1.x + t * (c2.x - c1.x), c1.y + t * (c2.y - c1.y), c1.z + t * (c2.z - c1.z)⟩

/-- The per-edge quadruples `((projected[i], projected[(i+1)%n]),
(coords[i], coords[(i+1)%n]))` the loops of lines 625-646 and 688-721
iterate over, obtained by zipping the projected ring and the 3D ring
with their rotations by one. -/
def ringQuads (proj : Pt3 → ProjPt) (coords : List Pt3) :
    List ((ProjPt × ProjPt) × (Pt3 × Pt3)) :=
  let projected := coords.map proj
  (projected.zip (projected.rotate 1)).zip (coords.zip (coords.rotate 1))

/-- The body of the clipped-path loop (source lines 625-646): a
front-facing point is kept; at a front→back flip the limb point for the
edge is pushed (note the source passes `(next, p)` there), at a
back→front flip the limb point for `(p, next)` is pushed. -/
def clipSteps (proj : Pt3 → ProjPt) :
    List ((ProjPt × ProjPt) × (Pt3 × Pt3)) → List ClipPt
  | [] => []
  | ((p, next), (c, nc)) :: rest =>
      (if p.z > 0 then
        ClipPt.mk p.x p.y false ::
          (if next.z > 0 then []
           else
             let ix := getEdgeIntersection proj next p nc c
             [ClipPt.mk ix.x ix.y true])
      else
        if next.z > 0 then
          let ix := getEdgeIntersection proj p next c nc
          [ClipPt.mk ix.x ix.y true]
        else []) ++ clipSteps proj rest

/-- The clipped fill path of one ring (source lines 623-646). -/
def clippedPath (proj : Pt3 → ProjPt) (coords : List Pt3) : List ClipPt :=
  clipSteps proj (ringQuads proj coords)

/-- The fill is emitted only when the clipped path has more than two
points (source line 648). -/
def fillEmitted (proj : Pt3 → ProjPt) (coords : List Pt3) : Prop :=
  2 < (clippedPath proj coords).length

/-- The edges on which the clipped-path loop invokes
`getEdgeIntersection` (with the argument order the source uses); the
guard structure is identical to `clipSteps`. -/
def clipCalls : List ((ProjPt × ProjPt) × (Pt3 × Pt3)) → List (ProjPt × ProjPt)
  | [] => []
  | ((p, next), _) :: rest =>
      (if p.z > 0 then
        (if next.z > 0 then [] else [(next, p)])
      else
        if next.z > 0 then [(p, next)] else []) ++ clipCalls rest

/-- The `getEdgeIntersection` invocations made while clipping one ring. -/
def edgeCalls (proj : Pt3 → ProjPt) (coords : List Pt3) : List (ProjPt × ProjPt) :=
  clipCalls (ringQuads proj coords)

/-- The border-stroke loop (source lines 686-721) emits the segment
`(p, next)` iff both endpoints are front-facing and the two proximity
checks pass: screen distance below `15 * zoom` and 3D distance below
20. -/
def strokeEmits (proj : Pt3 → ProjPt) (coords : List Pt3) (zoom : ℚ)
    (p next : ProjPt) : Prop :=
  ∃ c nc : Pt3, ((p, next), (c, nc)) ∈ ringQuads proj coords ∧
    p.z > 0 ∧ next.z > 0 ∧
    Real.sqrt (((next.x - p.x : ℚ) : ℝ) ^ 2 + ((next.y - p.y : ℚ) : ℝ) ^ 2) <
      15 * (zoom : ℝ) ∧
    Real.sqrt (((nc.x - c.x : ℚ) : ℝ) ^ 2 + ((nc.y - c.y : ℚ) : ℝ) ^ 2 +
      ((nc.z - c.z : ℚ) : ℝ) ^ 2) < 20

lemma clipSteps_all_front (proj : Pt3 → ProjPt)
    (L : List ((ProjPt × ProjPt) × (Pt3 × Pt3)))
    (h : ∀ q ∈ L, 0 < q.1.1.z ∧ 0 < q.1.2.z) :
    clipSteps proj L = L.map (fun q => ClipPt.mk q.1.1.x q.1.1.y false) := by
  induction L with
  | nil => rfl
  | cons q rest ih =>
      obtain ⟨⟨p, next⟩, c, nc⟩ := q
      have hq := h _ (List.mem_cons_self _ _)
      rw [clipSteps, if_pos hq.1, if_pos hq.2,
        ih (fun r hr => h r (List.mem_cons_of_mem _ hr))]
      rfl

lemma clipSteps_all_back (proj : Pt3 → ProjPt)
    (L : List ((ProjPt × ProjPt) × (Pt3 × Pt3)))
    (h : ∀ q ∈ L, ¬ 0 < q.1.1.z ∧ ¬ 0 < q.1.2.z) :
    clipSteps proj L = [] := by
  induction L with
  | nil => rfl
  | cons q rest ih =>
      obtain ⟨⟨p, next⟩, c, nc⟩ := q
      have hq := h _ (List.mem_cons_self _ _)
      rw [clipSteps, if_neg hq.1, if_neg hq.2,
        ih (fun r hr => h r (List.mem_cons_of_mem _ hr))]
      rfl

lemma clipCalls_all_back
    (L : List ((ProjPt × ProjPt) × (Pt3 × Pt3)))
    (h : ∀ q ∈ L, ¬ 0 < q.1.1.z ∧ ¬ 0 < q.1.2.z) :
    clipCalls L = [] := by
  induction L with
  | nil => rfl
  | cons q rest ih =>
      obtain ⟨⟨p, next⟩, c, nc⟩ := q
      have hq := h _ (List.mem_cons_self _ _)
      rw [clipCalls, if_neg hq.1, if_neg hq.2,
        ih (fun r hr => h r (List.mem_cons_of_mem _ hr))]
      rfl

lemma ringQuads_proj_mem (proj : Pt3 → ProjPt) (coords : List Pt3)
    (q : (ProjPt × ProjPt) × (Pt3 × Pt3)) (hq : q ∈ ringQuads proj coords) :
    q.1.1 ∈ coords.map proj ∧ q.1.2 ∈ coords.map proj := by
  rw [ringQuads] at hq
  obtain ⟨⟨p, next⟩, cc⟩ := q
  have h1 := (List.of_mem_zip hq).1
  have h2 := List.of_mem_zip h1
  exact ⟨h2.1, (List.mem_rotate).mp h2.2⟩

lemma ringQuads_map_fst (proj : Pt3 → ProjPt) (coords : List Pt3) :
    (ringQuads proj coords).map (fun q => ClipPt.mk q.1.1.x q.1.1.y false) =
      (coords.map proj).map (fun p => ClipPt.mk p.x p.y false) := by
  rw [ringQuads]
  have hlen1 : ((coords.map proj).zip ((coords.map proj).rotate 1)).length ≤
      (coords.zip (coords.rotate 1)).length := by
    simp [List.length_zip]
  have hlen2 : (coords.map proj).length ≤ ((coords.map proj).rotate 1).length := by
    simp
  calc (((coords.map proj).zip ((coords.map proj).rotate 1)).zip
          (coords.zip (coords.rotate 1))).map (fun q => ClipPt.mk q.1.1.x q.1.1.y false)
      = ((((coords.map proj).zip ((coords.map proj).rotate 1)).zip
          (coords.zip (coords.rotate 1))).map Prod.fst).map
            (fun a => ClipPt.mk a.1.x a.1.y false) := by
        rw [List.map_map]; rfl
    _ = (((coords.map proj).zip ((coords.map proj).rotate 1)).map Prod.fst).map
          (fun p => ClipPt.mk p.x p.y false) := by
        rw [List.map_fst_zip _ _ hlen1, List.map_map]; rfl
    _ = (coords.map proj).map (fun p => ClipPt.mk p.x p.y false) := by
        rw [List.map_fst_zip _ _ hlen2]

/-- C4.  A ring whose projected points are all strictly in front
(depth > 0) yields a clipped path equal to the full projected ring with
no limb points inserted; a ring whose projected points all have
depth ≤ 0 yields an empty clipped path, no fill (the `length > 2` guard
fails) and no stroked border segment. -/
theorem c4_ring_clipping (proj : Pt3 → ProjPt) (coords : List Pt3) (zoom : ℚ) :
    ((∀ p ∈ coords.map proj, 0 < p.z) →
      clippedPath proj coords = (coords.map proj).map (fun p => ClipPt.mk p.x p.y false)) ∧
    ((∀ p ∈ coords.map proj, p.z ≤ 0) →
      clippedPath proj coords = [] ∧ ¬ fillEmitted proj coords ∧
        ∀ p next : ProjPt, ¬ strokeEmits proj coords zoom p next) := by
  constructor
  · intro hz
    rw [clippedPath, clipSteps_all_front proj _ (fun q hq =>
      ⟨hz _ (ringQuads_proj_mem proj coords q hq).1,
       hz _ (ringQuads_proj_mem proj coords q hq).2⟩)]
    exact ringQuads_map_fst proj coords
  · intro hz
    have hempty : clippedPath proj coords = [] := by
      rw [clippedPath]
      exact clipSteps_all_back proj _ (fun q hq =>
        ⟨not_lt.mpr (hz _ (ringQuads_proj_mem proj coords q hq).1),
         not_lt.mpr (hz _ (ringQuads_proj_mem proj coords q hq).2)⟩)
    refine ⟨hempty, ?_, ?_⟩
    · rw [fillEmitted, hempty]
      norm_num
    · rintro p next ⟨c, nc, hmem, hp, _⟩
      exact absurd hp (not_lt.mpr (hz _ (ringQuads_proj_mem proj coords _ hmem).1))

/-- Witness for C4: a projection sending each 3D point to itself as a
screen point, one all-front triangle and one all-back triangle. -/
theorem c4_witness :
    ((∀ p ∈ ([⟨0, 0, 1⟩, ⟨1, 0, 1⟩, ⟨0, 1, 1⟩] : List Pt3).map
        (fun c => ProjPt.mk c.x c.y c.z), 0 < p.z) ∧
      clippedPath (fun c => ProjPt.mk c.x c.y c.z) [⟨0, 0, 1⟩, ⟨1, 0, 1⟩, ⟨0, 1, 1⟩] =
        [⟨0, 0, false⟩, ⟨1, 0, false⟩, ⟨0, 1, false⟩]) ∧
    ((∀ p ∈ ([⟨0, 0, -1⟩, ⟨1, 0, -2⟩, ⟨0, 1, -1⟩] : List Pt3).map
        (fun c => ProjPt.mk c.x c.y c.z), p.z ≤ 0) ∧
      clippedPath (fun c => ProjPt.mk c.x c.y c.z) [⟨0, 0, -1⟩, ⟨1, 0, -2⟩, ⟨0, 1, -1⟩] = [] ∧
      ¬ fillEmitted (fun c => ProjPt.mk c.x c.y c.z) [⟨0, 0, -1⟩, ⟨1, 0, -2⟩, ⟨0, 1, -1⟩]) := by
  have hf := c4_ring_clipping (fun c => ProjPt.mk c.x c.y c.z)
    [⟨0, 0, 1⟩, ⟨1, 0, 1⟩, ⟨0, 1, 1⟩] 1
  have hb := c4_ring_clipping (fun c => ProjPt.mk c.x c.y c.z)
    [⟨0, 0, -1⟩, ⟨1, 0, -2⟩, ⟨0, 1, -1⟩] 1
  refine ⟨⟨by decide, ?_⟩, by decide, ?_, ?_⟩
  · rw [hf.1 (by decide)]
    decide
  · exact (hb.2 (by decide)).1
  · exact (hb.2 (by decide)).2.1

/-- C9.  For a ring whose projected points all have depth exactly 0,
the clipped path is empty and — decisively for the division-by-zero
concern — `getEdgeIntersection` (whose interpolation parameter divides
by the depth difference `p1.z - p2.z`) is never invoked: the list of
edges on which the clipping loop calls it is empty, so the
crossing-interpolation step never divides by a zero depth delta. -/
theorem c9_zero_depth_ring_safe (proj : Pt3 → ProjPt) (coords : List Pt3)
    (hz : ∀ p ∈ coords.map proj, p.z = 0) :
    edgeCalls proj coords = [] ∧ clippedPath proj coords = [] := by
  have hc : ∀ q ∈ ringQuads proj coords, ¬ 0 < q.1.1.z ∧ ¬ 0 < q.1.2.z := by
    intro q hq
    constructor
    · rw [hz _ (ringQuads_proj_mem proj coords q hq).1]
      exact lt_irrefl 0
    · rw [hz _ (ringQuads_proj_mem proj coords q hq).2]
      exact lt_irrefl 0
  exact ⟨clipCalls_all_back _ hc, clipSteps_all_back proj _ hc⟩

/-- Witness for C9: a ring of three points all projected to depth 0. -/
theorem c9_witness :
    (∀ p ∈ ([⟨2, 0, 5⟩, ⟨0, 3, 5⟩, ⟨1, 1, 5⟩] : List Pt3).map
        (fun c => ProjPt.mk c.x c.y 0), p.z = 0) ∧
    edgeCalls (fun c => ProjPt.mk c.x c.y 0) [⟨2, 0, 5⟩, ⟨0, 3, 5⟩, ⟨1, 1, 5⟩] = [] ∧
    clippedPath (fun c => ProjPt.mk c.x c.y 0) [⟨2, 0, 5⟩, ⟨0, 3, 5⟩, ⟨1, 1, 5⟩] = [] := by
  have h := c9_zero_depth_ring_safe (fun c => ProjPt.mk c.x c.y 0)
    [⟨2, 0, 5⟩, ⟨0, 3, 5⟩, ⟨1, 1, 5⟩] (by decide)
  exact ⟨by decide, h.1, h.2⟩

/-! ## Load-time ingestion gate (source lines 146-226)

`loadStarlink` walks the fetched records.  The spaceTrack/TLE presence
checks, decay flags, `twoline2satrec` outcome and eccentricity are
record fields here; the external propagation capability is modelled by
two per-record functions: `eciOk t` (does `satellite.propagate` return
a position object at time `t`) and `alt t` (the geodetic altitude, with
`none` standing for a thrown conversion or a NaN altitude).  Times are
in milliseconds. -/

structure RawSat where
  hasSpaceTrack : Bool
  hasTLE1 : Bool
  hasTLE2 : Bool
  decayed : Bool
  hasDecayDate : Bool
  parseError : Bool
  ecco : ℚ
  name : String
  eciOk : ℤ → Bool
  alt : ℤ → Option ℚ

/-- The three validation sample times: load time, +10 min, +20 min
(source lines 165-169). -/
def sampleTimes (t0 : ℤ) : List ℤ :=
  [t0, t0 + 600000, t0 + 1200000]

/-- One iteration of the validation loop (source lines 174-198):
propagation must return a position, geodetic conversion must not throw
and must give a finite altitude, and the altitude must lie in
[200, 1000] km; the surviving altitude is pushed. -/
def checkSample (s : RawSat) (t : ℤ) : Option ℚ :=
  if s.eciOk t = false then none
  else
    match s.alt t with
    | none => none
    | some a => if a < 200 ∨ 1000 < a then none else some a

/-- `Math.max(...l)` / `Math.min(...l)` for the nonempty altitude lists
the source applies them to. -/
def listMax : List ℚ → ℚ
  | [] => 0
  | a :: l => l.foldl max a

def listMin : List ℚ → ℚ
  | [] => 0
  | a :: l => l.foldl min a

/-- The altitude spread `maxAlt - minAlt` (source lines 202-203,
873-874). -/
def altSpread (alts : List ℚ) : ℚ :=
  listMax alts - listMin alts

/-- The ingestion decision of `loadStarlink` for one record (source
lines 146-209), mirroring the `continue`/`isValid = false` control
flow: presence of spaceTrack and both TLE lines, no decay flag or
date, successful TLE parse, eccentricity ≤ 0.01, a resolvable position
at load time, three valid samples, and an altitude spread ≤ 50 km. -/
def ingestOk (t0 : ℤ) (s : RawSat) : Bool :=
  if ¬ s.hasSpaceTrack ∨ ¬ s.hasTLE1 ∨ ¬ s.hasTLE2 then false
  else if s.decayed ∨ s.hasDecayDate then false
  else if s.parseError then false
  else if 1 / 100 < s.ecco then false
  else if s.eciOk t0 = false then false
  else
    match (sampleTimes t0).mapM (checkSample s) with
    | none => false
    | some alts => if 50 < altSpread alts then false else true

/-- The working set (`satellitesRef.current`): the records surviving
the ingestion gate. -/
def workingSet (t0 : ℤ) (docs : List RawSat) : List RawSat :=
  docs.filter (fun s => ingestOk t0 s)

lemma checkSample_eq_some (s : RawSat) (t : ℤ) (a : ℚ) :
    checkSample s t = some a ↔
      s.eciOk t = true ∧ s.alt t = some a ∧ 200 ≤ a ∧ a ≤ 1000 := by
  rw [checkSample]
  by_cases h : s.eciOk t = false
  · rw [if_pos h]
    simp [h]
  · rw [if_neg h]
    rw [Bool.not_eq_false] at h
    split
    · rename_i halt
      simp [halt]
    · rename_i b halt
      simp only [halt, h, true_and, Option.some.injEq]
      by_cases hb : b < 200 ∨ 1000 < b
      · rw [if_pos hb]
        constructor
        · intro hfalse
          exact absurd hfalse (by simp)
        · rintro ⟨hba, h200, h1000⟩
          rw [← hba] at h200 h1000
          rcases hb with h1 | h1
          · exact absurd h200 (not_le.mpr h1)
          · exact absurd h1000 (not_le.mpr h1)
      · rw [if_neg hb]
        push_neg at hb
        simp only [Option.some.injEq]
        constructor
        · intro hab
          exact ⟨hab, hab ▸ hb.1, hab ▸ hb.2⟩
        · rintro ⟨hba, _, _⟩
          exact hba

/-- C7.  An object enters the working set iff it passes every check of
the claim: it has a spaceTrack record with both TLE lines, is not
flagged decayed, carries no decay date, parses, has eccentricity at
most 0.01, propagates at load time, its three samples (10 minutes
apart) all resolve with finite altitudes inside [200, 1000] km, and the
sampled altitudes spread by at most 50 km; membership in the working
set is exactly this acceptance. -/
theorem c7_ingestion_gate (t0 : ℤ) (s : RawSat) (docs : List RawSat) :
    (ingestOk t0 s = true ↔
      s.hasSpaceTrack = true ∧ s.hasTLE1 = true ∧ s.hasTLE2 = true ∧
      s.decayed = false ∧ s.hasDecayDate = false ∧ s.parseError = false ∧
      s.ecco ≤ 1 / 100 ∧ s.eciOk t0 = true ∧
      (∃ a0 a1 a2 : ℚ,
        s.alt t0 = some a0 ∧ 200 ≤ a0 ∧ a0 ≤ 1000 ∧
        s.eciOk (t0 + 600000) = true ∧ s.alt (t0 + 600000) = some a1 ∧
          200 ≤ a1 ∧ a1 ≤ 1000 ∧
        s.eciOk (t0 + 1200000) = true ∧ s.alt (t0 + 1200000) = some a2 ∧
          200 ≤ a2 ∧ a2 ≤ 1000 ∧
        altSpread [a0, a1, a2] ≤ 50)) ∧
    (s ∈ workingSet t0 docs ↔ s ∈ docs ∧ ingestOk t0 s = true) := by
  constructor
  · rw [ingestOk]
    by_cases h1 : ¬ s.hasSpaceTrack ∨ ¬ s.hasTLE1 ∨ ¬ s.hasTLE2
    · rw [if_pos h1]
      simp only [Bool.false_eq_true, false_iff]
      rintro ⟨hst, htle1, htle2, _⟩
      rcases h1 with h | h | h <;> simp [hst, htle1, htle2] at h
    · rw [if_neg h1]
      push_neg at h1
      obtain ⟨hst, htle1, htle2⟩ := h1
      by_cases h2 : s.decayed ∨ s.hasDecayDate
      · rw [if_pos h2]
        simp only [Bool.false_eq_true, false_iff]
        rintro ⟨_, _, _, hdec, hdate, _⟩
        rcases h2 with h | h <;> simp [hdec, hdate] at h
      · rw [if_neg h2]
        push_neg at h2
        by_cases h3 : s.parseError
        · rw [if_pos h3]
          simp only [Bool.false_eq_true, false_iff]
          rintro ⟨_, _, _, _, _, hpe, _⟩
          rw [hpe] at h3
          exact Bool.false_ne_true h3
        · rw [if_neg h3]
          by_cases h4 : 1 / 100 < s.ecco
          · rw [if_pos h4]
            simp only [Bool.false_eq_true, false_iff]
            rintro ⟨_, _, _, _, _, _, hecc, _⟩
            exact absurd hecc (not_le.mpr h4)
          · rw [if_neg h4]
            by_cases h5 : s.eciOk t0 = false
            · rw [if_pos h5]
              simp only [Bool.false_eq_true, false_iff]
              rintro ⟨_, _, _, _, _, _, _, heci, _⟩
              rw [heci] at h5
              exact Bool.true_eq_false.mp h5
            · rw [if_neg h5]
              rw [Bool.not_eq_false] at h5
              have heq : s.hasSpaceTrack = true ∧ s.hasTLE1 = true ∧ s.hasTLE2 = true ∧
                  s.decayed = false ∧ s.hasDecayDate = false ∧ s.parseError = false ∧
                  s.ecco ≤ 1 / 100 ∧ s.eciOk t0 = true :=
                ⟨by simp [hst], by simp [htle1], by simp [htle2],
                 by simp [h2.1], by simp [h2.2], by simp [h3], not_lt.mp h4, h5⟩
              rw [sampleTimes]
              rw [show ∀ f : ℤ → Option ℚ, List.mapM f [t0, t0 + 600000, t0 + 1200000] =
                    do {let a ← f t0; let b ← f (t0 + 600000); let c ← f (t0 + 1200000);
                        pure [a, b, c]} from fun f => rfl]
              cases hc0 : checkSample s t0 with
              | none =>
                  simp only [hc0, Option.bind_eq_bind, Option.none_bind,
                    Bool.false_eq_true, false_iff]
                  rintro ⟨_, _, _, _, _, _, _, _, a0, a1, a2, ha0, h200, h1000, hrest⟩
                  have : checkSample s t0 = some a0 :=
                    (checkSample_eq_some s t0 a0).mpr ⟨h5, ha0, h200, h1000⟩
                  rw [hc0] at this
                  exact Option.noConfusion this
              | some a0 =>
                  cases hc1 : checkSample s (t0 + 600000) with
                  | none =>
                      simp only [hc0, hc1, Option.bind_eq_bind, Option.some_bind,
                        Option.none_bind, Bool.false_eq_true, false_iff]
                      rintro ⟨_, _, _, _, _, _, _, _, b0, b1, b2, hrest⟩
                      have : checkSample s (t0 + 600000) = some b1 :=
                        (checkSample_eq_some s (t0 + 600000) b1).mpr
                          ⟨hrest.2.2.2.1, hrest.2.2.2.2.1, hrest.2.2.2.2.2.1,
                           hrest.2.2.2.2.2.2.1⟩
                      rw [hc1] at this
                      exact Option.noConfusion this
                  | some a1 =>
                      cases hc2 : checkSample s (t0 + 1200000) with
                      | none =>
                          simp only [hc0, hc1, hc2, Option.bind_eq_bind, Option.some_bind,
                            Option.none_bind, Bool.false_eq_true, false_iff]
                          rintro ⟨_, _, _, _, _, _, _, _, b0, b1, b2, hrest⟩
                          have : checkSample s (t0 + 1200000) = some b2 :=
                            (checkSample_eq_some s (t0 + 1200000) b2).mpr
                              ⟨hrest.2.2.2.2.2.2.2.1, hrest.2.2.2.2.2.2.2.2.1,
                               hrest.2.2.2.2.2.2.2.2.2.1, hrest.2.2.2.2.2.2.2.2.2.2.1⟩
                          rw [hc2] at this
                          exact Option.noConfusion this
                      | some a2 =>
                          simp only [hc0, hc1, hc2, Option.bind_eq_bind, Option.some_bind,
                            Option.pure_def]
                          obtain ⟨he0, hal0, h0l, h0u⟩ := (checkSample_eq_some s t0 a0).mp hc0
                          obtain ⟨he1, hal1, h1l, h1u⟩ :=
                            (checkSample_eq_some s (t0 + 600000) a1).mp hc1
                          obtain ⟨he2, hal2, h2l, h2u⟩ :=
                            (checkSample_eq_some s (t0 + 1200000) a2).mp hc2
                          by_cases hsp : 50 < altSpread [a0, a1, a2]
                          · rw [if_pos hsp]
                            simp only [Bool.false_eq_true, false_iff]
                            rintro ⟨_, _, _, _, _, _, _, _, b0, b1, b2, hb0, _, _, _, hb1,
                              _, _, _, hb2, _, _, hsp2⟩
                            rw [hal0, Option.some_inj] at hb0
                            rw [hal1, Option.some_inj] at hb1
                            rw [hal2, Option.some_inj] at hb2
                            rw [← hb0, ← hb1, ← hb2] at hsp2
                            exact absurd hsp2 (not_le.mpr hsp)
                          · rw [if_neg hsp]
                            simp only [true_iff]
                            exact ⟨heq.1, heq.2.1, heq.2.2.1, heq.2.2.2.1, heq.2.2.2.2.1,
                              heq.2.2.2.2.2.1, heq.2.2.2.2.2.2.1, heq.2.2.2.2.2.2.2,
                              a0, a1, a2, hal0, h0l, h0u, he1, hal1, h1l, h1u, he2, hal2,
                              h2l, h2u, not_lt.mp hsp⟩
  · rw [workingSet, List.mem_filter]

/-- Witness helpers for C7: a record passing every check and the empty
document list. -/
def goodSat : RawSat :=
  { hasSpaceTrack := true, hasTLE1 := true, hasTLE2 := true,
    decayed := false, hasDecayDate := false, parseError := false,
    ecco := 1 / 1000, name := "STARLINK-1", eciOk := fun _ => true,
    alt := fun _ => some 550 }

/-- Witness for C7: the concrete record `goodSat` is accepted at
`t0 = 0` and sits in the working set of `[goodSat]`. -/
theorem c7_witness :
    ingestOk 0 goodSat = true ∧ goodSat ∈ workingSet 0 [goodSat] := by
  have h := c7_ingestion_gate 0 goodSat [goodSat]
  have hacc : ingestOk 0 goodSat = true := by
    rw [h.1]
    refine ⟨rfl, rfl, rfl, rfl, rfl, rfl, by norm_num [goodSat], rfl,
      550, 550, 550, rfl, by norm_num, by norm_num, rfl, rfl, by norm_num, by norm_num,
      rfl, rfl, by norm_num, by norm_num, ?_⟩
    rw [altSpread]
    norm_num [listMax, listMin]
  exact ⟨hacc, (h.2).mpr ⟨List.mem_singleton_self _, hacc⟩⟩

/-! ## Trajectory validity filter (source lines 849-908, 911-915)

`isTrajectoryValid` samples the propagated geographic position at 10
instants 5 minutes apart starting from the current `simDate`, rejecting
on an unresolvable/non-finite sample, an altitude outside [100, 2000]
km, an altitude spread above 100 km, or an inter-sample ground-track
distance deviating from the average by more than 50%.  `drawTrajectory`
(lines 911-915) calls it afresh on every invocation — there is no
cache.  The external propagation + geodetic conversion
(`getSatLatLonAlt` for a fixed satrec) is a function parameter
`prop : ℤ → Option Geo`, `none` standing for an unresolvable or
non-finite result; times are in milliseconds. -/

structure Geo where
  lat : ℚ
  lon : ℚ
  alt : ℚ
  deriving DecidableEq

section
open Classical

/-- `Math.atan2` on non-NaN inputs (used by the distance computation
below with nonnegative arguments). -/
noncomputable def atan2 (y x : ℝ) : ℝ :=
  if 0 < x then Real.arctan (y / x)
  else if x < 0 then
    (if 0 ≤ y then Real.arctan (y / x) + Real.pi else Real.arctan (y / x) - Real.pi)
  else if 0 < y then Real.pi / 2
  else if y < 0 then -(Real.pi / 2)
  else 0

end

/-- The "rough distance calculation (simplified great circle)" of
source lines 885-895: haversine parameter `a`, arc
`c = 2·atan2(√a, √(1-a))`, scaled by `6371 +` mean altitude. -/
noncomputable def gcDist (p1 p2 : Geo) : ℝ :=
  let dLat := ((p2.lat - p1.lat : ℚ) : ℝ) * Real.pi / 180
  let dLon := ((p2.lon - p1.lon : ℚ) : ℝ) * Real.pi / 180
  let a := Real.sin (dLat / 2) ^ 2 +
    Real.cos ((p1.lat : ℝ) * Real.pi / 180) * Real.cos ((p2.lat : ℝ) * Real.pi / 180) *
      Real.sin (dLon / 2) ^ 2
  let c := 2 * atan2 (Real.sqrt a) (Real.sqrt (1 - a))
  (6371 + ((p1.alt : ℝ) + (p2.alt : ℝ)) / 2) * c

/-- The velocity-consistency check of source lines 879-905: distances
between consecutive samples must each stay within 50% of their average.
(The source divides `Math.abs(vel - avg)` by `avg`; since every
distance is nonnegative, `avg = 0` forces every `vel = 0`, where both
the JS NaN comparison and Lean's division by zero accept, so the
division semantics agree on all reachable inputs.) -/
noncomputable def velocityConsistent (gs : List Geo) : Prop :=
  let vels := (gs.zip gs.tail).map (fun q => gcDist q.1 q.2)
  ∀ v ∈ vels,
    |v - vels.sum / (vels.length : ℝ)| / (vels.sum / (vels.length : ℝ)) ≤ 1 / 2

/-- The verdict of `isTrajectoryValid` (source lines 849-908) for the
propagation capability `prop` at simulated time `simT`: all ten samples
(5 minutes apart) resolve, each altitude lies in [100, 2000] km, the
altitude spread is at most 100 km, and the inter-sample velocities are
consistent. -/
noncomputable def isTrajValid (prop : ℤ → Option Geo) (simT : ℤ) : Prop :=
  ∃ gs : List Geo,
    gs.length = 10 ∧
    (∀ i : Fin 10, prop (simT + (i.val : ℤ) * 300000) = some (gs.getD i.val ⟨0, 0, 0⟩)) ∧
    (∀ g ∈ gs, 100 ≤ g.alt ∧ g.alt ≤ 2000) ∧
    altSpread (gs.map (fun g => g.alt)) ≤ 100 ∧
    velocityConsistent gs

/-- Whether `drawTrajectory` (source lines 911-915) draws a path when
invoked at simulated time `simT`: it evaluates `isTrajectoryValid`
afresh on that very call and draws iff it returns true. -/
noncomputable def drawTrajectoryDraws (prop : ℤ → Option Geo) (simT : ℤ) : Prop :=
  isTrajValid prop simT

lemma gcDist_self (g : Geo) : gcDist g g = 0 := by
  rw [gcDist]
  simp only [sub_self, Rat.cast_zero, zero_mul, zero_div, Real.sin_zero, zero_pow,
    mul_zero, add_zero, Real.sqrt_zero, sub_zero, Real.sqrt_one, ne_eq,
    OfNat.ofNat_ne_zero, not_false_eq_true]
  rw [show atan2 0 1 = Real.arctan (0 / 1) from if_pos (by norm_num)]
  norm_num

/-- A propagation capability whose samples are all at altitude 500 km
on the 300000 ms grid and at altitude 50 km off it: the trajectory
verdict is true at simulated time 0 and false 1 second later. -/
def propC1 : ℤ → Option Geo := fun t =>
  if t % 300000 = 0 then some ⟨0, 0, 500⟩ else some ⟨0, 0, 50⟩

lemma propC1_valid_at_0 : isTrajValid propC1 0 := by
  refine ⟨List.replicate 10 ⟨0, 0, 500⟩, by decide, by decide, by decide, ?_, ?_⟩
  · rw [List.map_replicate]
    norm_num [altSpread, listMax, listMin, List.replicate]
  rw [velocityConsistent]
  have hz : ((List.replicate 10 (⟨0, 0, 500⟩ : Geo)).zip
      (List.replicate 10 (⟨0, 0, 500⟩ : Geo)).tail) =
      List.replicate 9 ((⟨0, 0, 500⟩ : Geo), (⟨0, 0, 500⟩ : Geo)) := by
    decide
  rw [hz, List.map_replicate, gcDist_self]
  intro v hv
  rw [List.eq_of_mem_replicate hv]
  norm_num

lemma propC1_invalid_at_1000 : ¬ isTrajValid propC1 1000 := by
  rintro ⟨gs, hlen, hsamp, halt, -, -⟩
  cases gs with
  | nil => simp at hlen
  | cons g0 rest =>
      have h0 := hsamp ⟨0, by norm_num⟩
      rw [show ((1000 : ℤ) + ((0 : ℕ) : ℤ) * 300000) = 1000 from by norm_num] at h0
      rw [show propC1 1000 = some ⟨0, 0, 50⟩ from by decide] at h0
      have hg0 : g0 = ⟨0, 0, 50⟩ := by
        have h1 : some (⟨0, 0, 50⟩ : Geo) = some g0 := h0.trans rfl
        exact (Option.some_inj.mp h1).symm
      have := (halt g0 (List.mem_cons_self _ _)).1
      rw [hg0] at this
      norm_num at this

/-- C1 counterexample.  The claim says a verdict computed at wall time
T is reused verbatim for any later validity query at T' with
T' − T < 30 s.  The code has no cache: `drawTrajectory` re-evaluates
`isTrajectoryValid` on every call.  Concrete input: under the
propagation capability `propC1` the verdict at simulated time 0 is
true, yet the query only 1 s later (well inside the claimed 30 s
window) evaluates to false — the earlier verdict is not reused. -/
theorem c1_counterexample :
    drawTrajectoryDraws propC1 0 ∧ ¬ drawTrajectoryDraws propC1 1000 ∧
      ((1000 : ℤ) - 0 < 30000) :=
  ⟨propC1_valid_at_0, propC1_invalid_at_1000, by norm_num⟩

/-- C1 (amended).  There is no trajectory-verdict cache: every validity
query made by `drawTrajectory` recomputes `isTrajectoryValid` from the
query's own simulated time, and two queries less than 30 s apart can
return different verdicts. -/
theorem c1_no_cache_every_query_recomputes :
    (∀ (prop : ℤ → Option Geo) (t : ℤ),
      drawTrajectoryDraws prop t ↔ isTrajValid prop t) ∧
    ∃ (prop : ℤ → Option Geo) (t t' : ℤ),
      0 ≤ t' - t ∧ t' - t < 30000 ∧
        drawTrajectoryDraws prop t ∧ ¬ drawTrajectoryDraws prop t' :=
  ⟨fun _ _ => Iff.rfl,
   propC1, 0, 1000, by norm_num, by norm_num, propC1_valid_at_0, propC1_invalid_at_1000⟩
